import Mathlib

/-!
Formal model of `lib/v3/smithy-client.js`, the middleware plugin that
instruments the Smithy (AWS SDK v3) client: a header-injection middleware at
the `finalizeRequest` step, an attribute-recording middleware at the
`deserialize` step, and the `addAwsAttributes` helper that writes four
`aws.*` attributes onto the tracing segment.

Modelling conventions (a shallow embedding of the JavaScript):
- A JS string-or-undefined value is `Option String`; JS `x || UNKNOWN`
  (which falls back on any falsy value, that is `undefined` or the empty
  string here) is `jsOr`.
- A headers object is a map `String → Option String`; JS property read is
  application, property write is pointwise update (exact, case-sensitive
  keys, as in JS).
- Mutation is explicit state passing; an async call that may reject is an
  `Except Unit` outcome supplied as an argument.
- `shim.getSegment(response.body.req)` is abstracted by its outcome
  (`GetSegment`): it may throw, return nothing, or return the segment; the
  transport handle argument is irrelevant once the outcome is fixed.
- `segment.addAttribute` appends a `(key, value)` pair to the segment's
  recorded list and may throw, governed by `Shim.addAttrThrows` indexed by
  the position of the call; a throw leaves earlier appends in place, as JS
  mutation does.
- `shim.logger.debug` never throws and has no modelled effect beyond the
  trace events of the middleware model.
-/

namespace SmithyClient

/-- The sentinel value `UNKNOWN = 'Unknown'` from the source. -/
def UNKNOWN : String := "Unknown"

/-- JS `v || d` where `v` is an undefined-or-string value: the fallback `d`
is used when `v` is falsy, that is `undefined` or the empty string. -/
def jsOr (v : Option String) (d : String) : String :=
  match v with
  | none => d
  | some s => if s = "" then d else s

/-- An outgoing HTTP request: its headers object. -/
structure HttpRequest where
  headers : String → Option String

/-- The middleware `args` value; the source only touches `args.request`. -/
structure MwArgs where
  request : HttpRequest

/-- The deserialized HTTP response: its headers object.  The transport
handle `response.body.req` is abstracted into `Shim.getSegment`. -/
structure HttpResponse where
  headers : String → Option String

/-- The `result` produced by the downstream pipeline stage. -/
structure MwResult where
  response : HttpResponse

/-- The smithy client config as read by this file: its `serviceId`.  The
async `config.region()` call is modelled by the `Except` outcome passed to
the attribute middleware. -/
structure SmithyConfig where
  serviceId : Option String

/-- The smithy command context as read by this file: its `commandName`. -/
structure Context where
  commandName : Option String

/-- Outcome of `shim.getSegment(response.body.req)`: the lookup throws,
returns nothing (so the subsequent method call on it throws), or finds the
segment. -/
inductive GetSegment where
  | throws
  | undef
  | seg
deriving DecidableEq

/-- The shim behaviour relevant to `addAwsAttributes`: the segment-lookup
outcome, and whether the n-th `segment.addAttribute` call throws. -/
structure Shim where
  getSegment : GetSegment
  addAttrThrows : Nat → Bool

/-- One `segment.addAttribute(k, v)` call, the n-th of the function body:
it either throws (carrying the pairs already recorded on the segment, which
persist) or appends `(k, v)` to the recorded pairs. -/
def addAttrStep (shim : Shim) (n : Nat) (recorded : List (String × String))
    (k v : String) : Except (List (String × String)) (List (String × String)) :=
  if shim.addAttrThrows n then Except.error recorded
  else Except.ok (recorded ++ [(k, v)])

/-- The `try` block of `addAwsAttributes`: look up the segment, then record
the four attributes in source order.  `Except.error` carries the pairs
recorded before the throw; `Except.ok` the pairs after normal completion. -/
def addAwsAttributesTry (shim : Shim) (response : HttpResponse)
    (config : SmithyConfig) (region : Option String) (context : Context) :
    Except (List (String × String)) (List (String × String)) :=
  match shim.getSegment with
  | GetSegment.throws => Except.error []
  | GetSegment.undef => Except.error []
  | GetSegment.seg =>
    match addAttrStep shim 0 [] ("aws.operation")
        (jsOr context.commandName UNKNOWN) with
    | Except.error r => Except.error r
    | Except.ok r1 =>
      match addAttrStep shim 1 r1 ("aws.requestId")
          (jsOr (response.headers ("x-amzn-requestid")) UNKNOWN) with
      | Except.error r => Except.error r
      | Except.ok r2 =>
        match addAttrStep shim 2 r2 ("aws.service")
            (jsOr config.serviceId UNKNOWN) with
        | Except.error r => Except.error r
        | Except.ok r3 =>
          addAttrStep shim 3 r3 ("aws.region") (jsOr region UNKNOWN)

/-- `addAwsAttributes`: the `try` body under the catch-all `catch` (which
only logs).  The value is the list of attribute pairs recorded on the
segment by this call, in order; the function is total, mirroring that no
exception escapes the source function. -/
def addAwsAttributes (shim : Shim) (result : MwResult) (config : SmithyConfig)
    (region : Option String) (context : Context) : List (String × String) :=
  match addAwsAttributesTry shim result.response config region context with
  | Except.ok r => r
  | Except.error r => r

/-- The four attribute pairs of `addAwsAttributes` in source order, used to
state which prefix of them ends up recorded. -/
def awsPairs (response : HttpResponse) (config : SmithyConfig)
    (region : Option String) (context : Context) : List (String × String) :=
  [(("aws.operation"), jsOr context.commandName UNKNOWN),
   (("aws.requestId"), jsOr (response.headers ("x-amzn-requestid")) UNKNOWN),
   (("aws.service"), jsOr config.serviceId UNKNOWN),
   (("aws.region"), jsOr region UNKNOWN)]

/-- JS property write `r.headers[k] = v`: pointwise update at the exact
key. -/
def HttpRequest.setHeader (r : HttpRequest) (k v : String) : HttpRequest :=
  ⟨fun q => if q = k then some v else r.headers q⟩

/-- One invocation of `wrappedHeaderMw` (the closure built by
`headerMiddleware`): set `args.request.headers['x-new-relic-disable-dt'] =
'true'`, then `return await next(args)`.  The first component is the `args`
value handed to `next` (the mutated one); the second is the value the
middleware returns, namely whatever `next` produced. -/
def headerMiddleware (next : MwArgs → Except Unit MwResult) (args : MwArgs) :
    MwArgs × Except Unit MwResult :=
  let args2 : MwArgs :=
    ⟨args.request.setHeader ("x-new-relic-disable-dt") ("true")⟩
  (args2, next args2)

/-- Observable events of one `wrappedMiddleware` invocation, in order. -/
inductive Ev where
  | regionAttempt
  | logRegionError
  | nextCall
  | recordAttrs
deriving DecidableEq

/-- One invocation of `wrappedMiddleware` (the closure built by
`attrMiddleware`): `try { region = await config.region() } catch { log }
finally { result = await next(args); addAwsAttributes(...); return result }`.
`regionRes` is the outcome of awaiting `config.region()`; `nextRes` the
outcome of awaiting `next(args)`.  The value is the event trace, the value
returned (or rethrown) by the middleware, and the attribute pairs recorded
on the segment. -/
def attrMiddleware (shim : Shim) (config : SmithyConfig) (context : Context)
    (regionRes : Except Unit String) (nextRes : Except Unit MwResult) :
    List Ev × Except Unit MwResult × List (String × String) :=
  let region : Option String :=
    match regionRes with
    | Except.ok r => some r
    | Except.error _ => none
  let tr1 : List Ev :=
    match regionRes with
    | Except.ok _ => [Ev.regionAttempt]
    | Except.error _ => [Ev.regionAttempt, Ev.logRegionError]
  match nextRes with
  | Except.error e => (tr1 ++ [Ev.nextCall], Except.error e, [])
  | Except.ok result =>
    (tr1 ++ [Ev.nextCall, Ev.recordAttrs], Except.ok result,
      addAwsAttributes shim result config region context)

/-- A middleware registration as `clientStack.add` receives it: name, step
and optional priority. -/
structure MwRegistration where
  name : String
  step : String
  priority : Option String
deriving DecidableEq

/-- The registration options of the `NewRelicHeader` middleware. -/
def headerRegistration : MwRegistration :=
  ⟨("NewRelicHeader"), ("finalizeRequest"), some ("low")⟩

/-- The registration options of the `NewRelicDeserialize` middleware. -/
def attrRegistration : MwRegistration :=
  ⟨("NewRelicDeserialize"), ("deserialize"), none⟩

/-- One `clientStack.add` call, the n-th of `applyToStack`: the host may
throw (`addFails`), otherwise the registration is appended. -/
def stackAdd (addFails : Nat → Bool) (n : Nat) (regs : List MwRegistration)
    (r : MwRegistration) : Except Unit (List MwRegistration) :=
  if addFails n then Except.error () else Except.ok (regs ++ [r])

/-- `applyToStack` from the plugin returned by `getPlugin`: two
`clientStack.add` calls in source order, with no catch around them, so a
host failure propagates. -/
def applyToStack (addFails : Nat → Bool) (clientStack : List MwRegistration) :
    Except Unit (List MwRegistration) :=
  match stackAdd addFails 0 clientStack headerRegistration with
  | Except.error e => Except.error e
  | Except.ok s1 => stackAdd addFails 1 s1 attrRegistration

/-- C1: with response headers mapping `x-amzn-requestid` to `abc-123`,
config serviceId `DynamoDB`, resolved region `us-east-1` and command name
`GetItem`, `addAwsAttributes` records exactly the four pairs
`aws.operation=GetItem`, `aws.requestId=abc-123`, `aws.service=DynamoDB`,
`aws.region=us-east-1` on the segment, and nothing else. -/
theorem addAwsAttributes_exact_four (shim : Shim)
    (hdrs : String → Option String)
    (h1 : shim.getSegment = GetSegment.seg)
    (h2 : ∀ n, shim.addAttrThrows n = false)
    (h3 : hdrs ("x-amzn-requestid") = some ("abc-123")) :
    addAwsAttributes shim ⟨⟨hdrs⟩⟩ ⟨some ("DynamoDB")⟩ (some ("us-east-1"))
      ⟨some ("GetItem")⟩ =
      [(("aws.operation"), ("GetItem")), (("aws.requestId"), ("abc-123")),
       (("aws.service"), ("DynamoDB")), (("aws.region"), ("us-east-1"))] := by
  simp [addAwsAttributes, addAwsAttributesTry, addAttrStep, jsOr, UNKNOWN,
    h1, h2, h3]

/-- Witness for C1 at a concrete shim and headers map. -/
theorem addAwsAttributes_exact_four_witness :
    addAwsAttributes ⟨GetSegment.seg, fun _ => false⟩
      ⟨⟨fun k => if k = ("x-amzn-requestid") then some ("abc-123") else none⟩⟩
      ⟨some ("DynamoDB")⟩ (some ("us-east-1")) ⟨some ("GetItem")⟩ =
      [(("aws.operation"), ("GetItem")), (("aws.requestId"), ("abc-123")),
       (("aws.service"), ("DynamoDB")), (("aws.region"), ("us-east-1"))] :=
  addAwsAttributes_exact_four ⟨GetSegment.seg, fun _ => false⟩ _
    rfl (fun _ => rfl) (by simp)

/-- C2 counterexample: the header lookup in `addAwsAttributes` is a plain
property access with the literal lowercase key, not a case-insensitive
lookup.  With the request id stored under the casing `X-Amzn-RequestId`,
the claim says `aws.requestId` gets `abc-123`; the code records the
sentinel `Unknown` instead. -/
theorem addAwsAttributes_requestId_other_casing_cex :
    addAwsAttributes ⟨GetSegment.seg, fun _ => false⟩
      ⟨⟨fun k => if k = ("X-Amzn-RequestId") then some ("abc-123") else none⟩⟩
      ⟨some ("DynamoDB")⟩ (some ("us-east-1")) ⟨some ("GetItem")⟩ =
      [(("aws.operation"), ("GetItem")), (("aws.requestId"), ("Unknown")),
       (("aws.service"), ("DynamoDB")), (("aws.region"), ("us-east-1"))]
    ∧ (("aws.requestId"), ("abc-123")) ∉
      addAwsAttributes ⟨GetSegment.seg, fun _ => false⟩
        ⟨⟨fun k => if k = ("X-Amzn-RequestId") then some ("abc-123") else none⟩⟩
        ⟨some ("DynamoDB")⟩ (some ("us-east-1")) ⟨some ("GetItem")⟩ := by
  constructor
  · simp [addAwsAttributes, addAwsAttributesTry, addAttrStep, jsOr, UNKNOWN]
  · simp [addAwsAttributes, addAwsAttributesTry, addAttrStep, jsOr, UNKNOWN]

/-- C2 amended: `aws.requestId` is taken from the response header found
under the exact lowercase key `x-amzn-requestid` (case-sensitive JS
property access); whenever that exact key holds a non-empty value, that
value is recorded. -/
theorem addAwsAttributes_requestId_exact_key (shim : Shim)
    (hdrs : String → Option String) (cfg : SmithyConfig)
    (region : Option String) (ctx : Context) (v : String)
    (h1 : shim.getSegment = GetSegment.seg)
    (h2 : ∀ n, shim.addAttrThrows n = false)
    (h3 : hdrs ("x-amzn-requestid") = some v) (h4 : v ≠ "") :
    (("aws.requestId"), v) ∈ addAwsAttributes shim ⟨⟨hdrs⟩⟩ cfg region ctx := by
  simp [addAwsAttributes, addAwsAttributesTry, addAttrStep, jsOr, UNKNOWN,
    h1, h2, h3, h4]

/-- Witness for the amended C2 at a concrete shim and headers map. -/
theorem addAwsAttributes_requestId_exact_key_witness :
    (("aws.requestId"), ("abc-123")) ∈
      addAwsAttributes ⟨GetSegment.seg, fun _ => false⟩
        ⟨⟨fun k => if k = ("x-amzn-requestid") then some ("abc-123") else none⟩⟩
        ⟨some ("DynamoDB")⟩ (some ("us-east-1")) ⟨some ("GetItem")⟩ :=
  addAwsAttributes_requestId_exact_key ⟨GetSegment.seg, fun _ => false⟩ _ _ _ _ _
    rfl (fun _ => rfl) (by simp) (by simp)

/-- C3 counterexample: attribute recording is not atomic.  With a segment
whose third `addAttribute` call throws, the two attributes recorded before
the throw remain on the segment, while the claim demands zero attributes on
any recording failure. -/
theorem addAwsAttributes_partial_write_cex :
    addAwsAttributes ⟨GetSegment.seg, fun n => n == 2⟩
      ⟨⟨fun k => if k = ("x-amzn-requestid") then some ("abc-123") else none⟩⟩
      ⟨some ("DynamoDB")⟩ (some ("us-east-1")) ⟨some ("GetItem")⟩ =
      [(("aws.operation"), ("GetItem")), (("aws.requestId"), ("abc-123"))] := by
  simp [addAwsAttributes, addAwsAttributesTry, addAttrStep, jsOr, UNKNOWN]

/-- C3 amended: no exception escapes `addAwsAttributes` (the function is
total); the recorded pairs are always a prefix of the four source-order
pairs, so a throw in the k-th `addAttribute` call keeps the earlier
recordings; and when the segment lookup throws or returns nothing, zero
attributes are recorded. -/
theorem addAwsAttributes_error_containment (shim : Shim) (result : MwResult)
    (cfg : SmithyConfig) (region : Option String) (ctx : Context) :
    (∃ k, addAwsAttributes shim result cfg region ctx =
      List.take k (awsPairs result.response cfg region ctx))
    ∧ addAwsAttributes ⟨GetSegment.throws, shim.addAttrThrows⟩ result cfg
        region ctx = []
    ∧ addAwsAttributes ⟨GetSegment.undef, shim.addAttrThrows⟩ result cfg
        region ctx = [] := by
  obtain ⟨gs, thr⟩ := shim
  refine ⟨?_, rfl, rfl⟩
  cases gs with
  | throws => exact ⟨0, rfl⟩
  | undef => exact ⟨0, rfl⟩
  | seg =>
    cases h0 : thr 0 with
    | true =>
      exact ⟨0, by simp [addAwsAttributes, addAwsAttributesTry, addAttrStep, h0]⟩
    | false =>
      cases h1 : thr 1 with
      | true =>
        exact ⟨1, by
          simp [addAwsAttributes, addAwsAttributesTry, addAttrStep, awsPairs,
            h0, h1]⟩
      | false =>
        cases h2 : thr 2 with
        | true =>
          exact ⟨2, by
            simp [addAwsAttributes, addAwsAttributesTry, addAttrStep, awsPairs,
              h0, h1, h2]⟩
        | false =>
          cases h3 : thr 3 with
          | true =>
            exact ⟨3, by
              simp [addAwsAttributes, addAwsAttributesTry, addAttrStep,
                awsPairs, h0, h1, h2, h3]⟩
          | false =>
            exact ⟨4, by
              simp [addAwsAttributes, addAwsAttributesTry, addAttrStep,
                awsPairs, h0, h1, h2, h3]⟩

/-- C4: on every invocation of the attribute middleware, whatever the
outcomes of region resolution and of the next stage, the trace contains
exactly one `nextCall`; the region-resolution attempt precedes it;
attribute recording never precedes it; and the middleware's value is
exactly the next stage's value. -/
theorem attrMiddleware_next_once_ordered (shim : Shim) (cfg : SmithyConfig)
    (ctx : Context) (regionRes : Except Unit String)
    (nextRes : Except Unit MwResult) :
    ∃ l1 l2,
      (attrMiddleware shim cfg ctx regionRes nextRes).1 = l1 ++ Ev.nextCall :: l2
      ∧ Ev.nextCall ∉ l1 ∧ Ev.nextCall ∉ l2
      ∧ Ev.regionAttempt ∈ l1 ∧ Ev.recordAttrs ∉ l1
      ∧ (attrMiddleware shim cfg ctx regionRes nextRes).2.1 = nextRes := by
  cases regionRes with
  | ok r =>
    cases nextRes with
    | ok result =>
      exact ⟨[Ev.regionAttempt], [Ev.recordAttrs], rfl, by decide, by decide,
        by decide, by decide, rfl⟩
    | error e =>
      exact ⟨[Ev.regionAttempt], [], rfl, by decide, by decide, by decide,
        by decide, rfl⟩
  | error u =>
    cases nextRes with
    | ok result =>
      exact ⟨[Ev.regionAttempt, Ev.logRegionError], [Ev.recordAttrs], rfl,
        by decide, by decide, by decide, by decide, rfl⟩
    | error e =>
      exact ⟨[Ev.regionAttempt, Ev.logRegionError], [], rfl, by decide,
        by decide, by decide, by decide, rfl⟩

/-- C5: when `config.region()` rejects, the rejection is only logged: the
middleware still returns exactly the next stage's outcome (so the exception
does not escape), the next stage is still invoked, and with a well-behaved
segment the recording runs with the undefined region, recorded as the
sentinel `Unknown`. -/
theorem attrMiddleware_region_error_contained (shim : Shim)
    (cfg : SmithyConfig) (ctx : Context) (nextRes : Except Unit MwResult)
    (result : MwResult) :
    (attrMiddleware shim cfg ctx (Except.error ()) nextRes).2.1 = nextRes
    ∧ Ev.logRegionError ∈ (attrMiddleware shim cfg ctx (Except.error ()) nextRes).1
    ∧ Ev.nextCall ∈ (attrMiddleware shim cfg ctx (Except.error ()) nextRes).1
    ∧ (("aws.region"), ("Unknown")) ∈
        (attrMiddleware ⟨GetSegment.seg, fun _ => false⟩ cfg ctx
          (Except.error ()) (Except.ok result)).2.2 := by
  refine ⟨?_, ?_, ?_, ?_⟩
  · cases nextRes with
    | ok result2 => rfl
    | error e => rfl
  · cases nextRes with
    | ok result2 => simp [attrMiddleware]
    | error e => simp [attrMiddleware]
  · cases nextRes with
    | ok result2 => simp [attrMiddleware]
    | error e => simp [attrMiddleware]
  · simp [attrMiddleware, addAwsAttributes, addAwsAttributesTry, addAttrStep,
      jsOr, UNKNOWN]

/-- C6: the header middleware hands `next` an `args` whose request headers
hold `x-new-relic-disable-dt = true` (the header is set before `next`
runs), and returns exactly what `next` returned on that `args`. -/
theorem headerMiddleware_sets_and_forwards
    (next : MwArgs → Except Unit MwResult) (args : MwArgs) :
    (headerMiddleware next args).1.request.headers ("x-new-relic-disable-dt")
        = some ("true")
    ∧ (headerMiddleware next args).2 = next (headerMiddleware next args).1 := by
  constructor
  · simp [headerMiddleware, HttpRequest.setHeader]
  · rfl

/-- C7: `applyToStack` performs exactly two registrations, in order
`NewRelicHeader` at `finalizeRequest` with priority `low` and
`NewRelicDeserialize` at `deserialize`, appending nothing else; and it
catches no registration failure (a throwing `add` propagates). -/
theorem applyToStack_registers_two (addFails : Nat → Bool)
    (stack : List MwRegistration) (h : ∀ n, addFails n = false) :
    applyToStack addFails stack =
      Except.ok (stack ++
        [⟨("NewRelicHeader"), ("finalizeRequest"), some ("low")⟩,
         ⟨("NewRelicDeserialize"), ("deserialize"), none⟩])
    ∧ applyToStack (fun _ => true) stack = Except.error () := by
  constructor
  · simp [applyToStack, stackAdd, h, headerRegistration, attrRegistration]
  · simp [applyToStack, stackAdd]

/-- Witness for C7 at a concrete failure function and stack. -/
theorem applyToStack_registers_two_witness :
    applyToStack (fun _ => false) [] =
      Except.ok
        [⟨("NewRelicHeader"), ("finalizeRequest"), some ("low")⟩,
         ⟨("NewRelicDeserialize"), ("deserialize"), none⟩]
    ∧ applyToStack (fun _ => true) [] = Except.error () := by
  have h := applyToStack_registers_two (fun _ => false) [] (fun _ => rfl)
  simpa using h

/-- C8: with an empty response-headers mapping, an undefined region and no
serviceId, the segment receives `aws.requestId=Unknown`,
`aws.service=Unknown` and `aws.region=Unknown`. -/
theorem addAwsAttributes_absent_unknown (ctx : Context) :
    (("aws.requestId"), ("Unknown")) ∈
      addAwsAttributes ⟨GetSegment.seg, fun _ => false⟩ ⟨⟨fun _ => none⟩⟩
        ⟨none⟩ none ctx
    ∧ (("aws.service"), ("Unknown")) ∈
      addAwsAttributes ⟨GetSegment.seg, fun _ => false⟩ ⟨⟨fun _ => none⟩⟩
        ⟨none⟩ none ctx
    ∧ (("aws.region"), ("Unknown")) ∈
      addAwsAttributes ⟨GetSegment.seg, fun _ => false⟩ ⟨⟨fun _ => none⟩⟩
        ⟨none⟩ none ctx := by
  refine ⟨?_, ?_, ?_⟩ <;>
    simp [addAwsAttributes, addAwsAttributesTry, addAttrStep, jsOr, UNKNOWN]

/-- C9: the `|| Unknown` fallback triggers on any falsy present value, not
only on absent ones: with a well-behaved segment, whenever any single one
of the command name, the request-id header value, the serviceId or the
resolved region is present but equal to the empty string, the
corresponding `aws.*` attribute is recorded as `Unknown`, whatever the
other values are. -/
theorem addAwsAttributes_falsy_unknown (shim : Shim)
    (hdrs : String → Option String) (cfg : SmithyConfig)
    (region : Option String) (ctx : Context)
    (h1 : shim.getSegment = GetSegment.seg)
    (h2 : ∀ n, shim.addAttrThrows n = false) :
    (ctx.commandName = some ("") →
      (("aws.operation"), ("Unknown")) ∈
        addAwsAttributes shim ⟨⟨hdrs⟩⟩ cfg region ctx)
    ∧ (hdrs ("x-amzn-requestid") = some ("") →
      (("aws.requestId"), ("Unknown")) ∈
        addAwsAttributes shim ⟨⟨hdrs⟩⟩ cfg region ctx)
    ∧ (cfg.serviceId = some ("") →
      (("aws.service"), ("Unknown")) ∈
        addAwsAttributes shim ⟨⟨hdrs⟩⟩ cfg region ctx)
    ∧ (region = some ("") →
      (("aws.region"), ("Unknown")) ∈
        addAwsAttributes shim ⟨⟨hdrs⟩⟩ cfg region ctx) := by
  refine ⟨fun hc => ?_, fun hh => ?_, fun hs => ?_, fun hr => ?_⟩
  · simp [addAwsAttributes, addAwsAttributesTry, addAttrStep, jsOr, UNKNOWN,
      h1, h2, hc]
  · simp [addAwsAttributes, addAwsAttributesTry, addAttrStep, jsOr, UNKNOWN,
      h1, h2, hh]
  · simp [addAwsAttributes, addAwsAttributesTry, addAttrStep, jsOr, UNKNOWN,
      h1, h2, hs]
  · simp [addAwsAttributes, addAwsAttributesTry, addAttrStep, jsOr, UNKNOWN,
      h1, h2, hr]

/-- Witness for C9: the serviceId alone is present but empty while the
command name, the request-id header and the region are all non-falsy;
`aws.service` is recorded as `Unknown`. -/
theorem addAwsAttributes_falsy_unknown_witness :
    (("aws.service"), ("Unknown")) ∈
      addAwsAttributes ⟨GetSegment.seg, fun _ => false⟩
        ⟨⟨fun k => if k = ("x-amzn-requestid") then some ("abc-123")
          else none⟩⟩
        ⟨some ("")⟩ (some ("us-east-1")) ⟨some ("GetItem")⟩ :=
  (addAwsAttributes_falsy_unknown ⟨GetSegment.seg, fun _ => false⟩ _ _ _ _
    rfl (fun _ => rfl)).2.2.1 rfl

/-- C10: the header middleware leaves every header other than
`x-new-relic-disable-dt` unchanged, and overwrites a pre-existing
`x-new-relic-disable-dt` entry with `true`. -/
theorem headerMiddleware_frame (next : MwArgs → Except Unit MwResult)
    (args : MwArgs) (k : String) (h : k ≠ ("x-new-relic-disable-dt")) :
    (headerMiddleware next args).1.request.headers k = args.request.headers k
    ∧ (headerMiddleware next args).1.request.headers ("x-new-relic-disable-dt")
        = some ("true") := by
  constructor
  · simp [headerMiddleware, HttpRequest.setHeader, h]
  · simp [headerMiddleware, HttpRequest.setHeader]

/-- Witness for C10: a concrete request holding a `content-type` header and
a pre-existing `x-new-relic-disable-dt = false` header; the former is
preserved and the latter overwritten. -/
theorem headerMiddleware_frame_witness :
    (headerMiddleware (fun _ => Except.error ())
      ⟨⟨fun q => if q = ("content-type") then some ("application/json")
        else if q = ("x-new-relic-disable-dt") then some ("false")
        else none⟩⟩).1.request.headers ("content-type") =
      (⟨⟨fun q => if q = ("content-type") then some ("application/json")
        else if q = ("x-new-relic-disable-dt") then some ("false")
        else none⟩⟩ : MwArgs).request.headers ("content-type")
    ∧ (headerMiddleware (fun _ => Except.error ())
      ⟨⟨fun q => if q = ("content-type") then some ("application/json")
        else if q = ("x-new-relic-disable-dt") then some ("false")
        else none⟩⟩).1.request.headers ("x-new-relic-disable-dt") =
      some ("true") :=
  headerMiddleware_frame (fun _ => Except.error ()) _ _ (by simp)

end SmithyClient
